import Mathlib

/-!
# Verification of the whatsapp-web.js AI-assistant orchestration layer

A shallow embedding, in Lean 4, of the AI-assistant subsystem of the
`whatsapp-web.js` fork under study:

* `src/structures/TemplateParser.js` — the structured-command parser
  (`parseMessage`, `validateParsedMessage`, `_convertValueType`);
* `src/structures/Thread.js` — per-chat conversation threads (`ask`,
  history truncation, context);
* `src/structures/AIAssistant.js` — the assistant orchestrator
  (`ask`, middleware chain, thread creation/eviction, the human/AI
  handoff state machine, `processMessage`);
* `src/structures/storage/ThreadStorage.js` — the in-memory storage
  provider (`getThread` with lazy TTL expiry, `saveThread`).

Modelling conventions:

* JavaScript strings are Lean `String`s; operations that the JS code
  performs on strings (`toLowerCase`, `trim`, `split`, regex matching)
  are re-implemented over `List Char` so that they reduce inside the
  kernel.  Character classes (`\w`, `\s`) are modelled on the ASCII
  fragment, which covers every string handled in this development.
* JavaScript `Map`s are association lists with JS `Map` semantics:
  `set` overwrites in place, keeping insertion order, otherwise appends;
  `delete` removes the unique entry with the key.
* `Date.now()` is an explicit `now : Nat` argument threaded through the
  operations; `async`/`await` sequencing is direct state passing
  (the host runs each step to completion, per the single-threaded
  cooperative scheduling the code relies on).
* Fallible paths (`throw`) are `Except String` results.
* Human-operator handler callbacks (`onHandoff`/`onMessage`/`onRelease`)
  are not modelled: the code always wraps them in try/catch, swallows
  and logs their errors, and commits the surrounding state transition
  regardless, so they cannot affect any property treated here.  The
  statistics counters (`_stats`) and the `fallbackProvider` retry path
  of `Thread._callAI` are likewise outside the claims and not modelled.
* Middleware steps are modelled as a pre-`next()` mutation of the
  context plus a flag saying whether the step invokes its continuation;
  post-`next()` ("unwind") logic of a step is not needed by any claim.
-/

/-! ## JS string primitives -/

/-- JS `\w` character class (ASCII fragment): `[A-Za-z0-9_]`. -/
def isWordChar (c : Char) : Bool :=
  c.isAlpha || c.isDigit || c = '_'

/-- JS `\s` character class (ASCII fragment). -/
def isJsSpace (c : Char) : Bool :=
  c = ' ' || c = '\t' || c = '\n' || c = '\r' || c = '\x0b' || c = '\x0c'

/-- JS `String.prototype.toLowerCase` on the ASCII fragment. -/
def jsToLower (s : String) : String :=
  String.mk (s.data.map Char.toLower)

/-- JS `String.prototype.trim`: strip leading and trailing whitespace. -/
def jsTrim (s : String) : String :=
  String.mk (((s.data.dropWhile isJsSpace).reverse.dropWhile isJsSpace).reverse)

/-- JS `String.prototype.split(sep)` for a one-character separator. -/
def jsSplitChar (sep : Char) (s : String) : List String :=
  go s.data [] |>.map (fun l => String.mk l.reverse) |>.reverse
where
  /-- Accumulate reversed segments (head = segment being built). -/
  go : List Char → List (List Char) → List (List Char)
    | [], acc => match acc with
      | [] => [[]]
      | _ => acc
    | c :: cs, [] => if c = sep then go cs [[], []] else go cs [[c]]
    | c :: cs, cur :: done =>
      if c = sep then go cs ([] :: cur :: done) else go cs ((c :: cur) :: done)

/-- Substring test (JS `String.prototype.includes`). -/
def listIsPrefix : List Char → List Char → Bool
  | [], _ => true
  | _ :: _, [] => false
  | a :: as, b :: bs => a = b && listIsPrefix as bs

/-- Substring test (JS `String.prototype.includes`), list form. -/
def listContainsSub (pat : List Char) : List Char → Bool
  | [] => listIsPrefix pat []
  | c :: cs => listIsPrefix pat (c :: cs) || listContainsSub pat cs

/-- JS `s.includes(sub)`. -/
def jsIncludes (s sub : String) : Bool :=
  listContainsSub sub.data s.data

/-- JS truthiness of a nullable string (`null`/`undefined` and `""` are falsy). -/
def jsTruthyStr : Option String → Bool
  | none => false
  | some s => s ≠ ""

/-! ## JS `Map` as an association list (insertion-ordered, unique keys) -/

/-- `Map.prototype.get`. -/
def mapGet {α : Type} (m : List (String × α)) (k : String) : Option α :=
  match m with
  | [] => none
  | (k0, v) :: rest => if k0 = k then some v else mapGet rest k

/-- `Map.prototype.set`: overwrite in place if present, else append. -/
def mapSet {α : Type} (m : List (String × α)) (k : String) (v : α) :
    List (String × α) :=
  match m with
  | [] => [(k, v)]
  | (k0, v0) :: rest => if k0 = k then (k, v) :: rest else (k0, v0) :: mapSet rest k v

/-- `Map.prototype.delete` (ignoring the returned boolean): remove the
entry with the key (keys are unique in every map built here). -/
def mapDelete {α : Type} (m : List (String × α)) (k : String) : List (String × α) :=
  match m with
  | [] => []
  | (k0, v0) :: rest =>
    if k0 = k then mapDelete rest k else (k0, v0) :: mapDelete rest k

/-! ## TemplateParser (`src/structures/TemplateParser.js`)

The parser stores parsed fields in the same JS object that carries
`command`; we model that object as an insertion-ordered association list
from field name to value (`command` is the entry keyed `"command"`),
with `isValid` and `errors` as the two distinguished non-field
properties the code reads back out.  The optional per-field `pattern`
constraint of `validateParsedMessage` is not modelled: no template in
this development (and no claim) declares a `pattern`. -/

/-- A JS number: either NaN (failed `Number(...)` parse) or an integer.
Every numeric literal reachable from the claims is an integer. -/
inductive JSNum where
  | nan : JSNum
  | int : Int → JSNum
deriving DecidableEq, Repr

/-- A parsed field value, as produced by `_convertValueType`. -/
inductive JSValue where
  | vStr : String → JSValue
  | vNum : JSNum → JSValue
  | vBool : Bool → JSValue
  | vArr : List String → JSValue
deriving DecidableEq, Repr

/-- JS `typeof` of a parsed value (`typeof NaN === "number"`;
`typeof` of an array is `"object"`). -/
def jsTypeof : JSValue → String
  | .vStr _ => "string"
  | .vNum _ => "number"
  | .vBool _ => "boolean"
  | .vArr _ => "object"

/-- `Array.isArray`. -/
def jsIsArray : JSValue → Bool
  | .vArr _ => true
  | _ => false

/-- JS `Number(string)` on the fragment reachable here: optional sign and
decimal digits after trimming; the empty string parses to `0`; anything
else is NaN.  (No claim feeds `Number` anything outside this fragment.) -/
def jsNumberOf (s : String) : JSNum :=
  let t := (jsTrim s).data
  match t with
  | [] => .int 0
  | '-' :: ds => if ds ≠ [] && ds.all Char.isDigit then .int (-(digitsToNat ds)) else .nan
  | ds => if ds.all Char.isDigit then .int (digitsToNat ds) else .nan
where
  /-- Decimal digits to a natural number. -/
  digitsToNat (ds : List Char) : Nat :=
    ds.foldl (fun acc c => acc * 10 + (c.toNat - '0'.toNat)) 0

/-- A template field: `{type, required}` (see `MessageTemplate` typedef). -/
structure FieldDef where
  type : Option String
  required : Bool
deriving DecidableEq, Repr

/-- A message template: field name → definition, in declaration order. -/
structure MessageTemplate where
  fields : List (String × FieldDef)
deriving DecidableEq, Repr

/-- The parser result object: the dynamic field bag (including the
`command` entry when matched) plus `isValid` and `errors`. -/
structure ParsedMessage where
  fields : List (String × JSValue)
  errors : List String
  isValid : Bool
deriving DecidableEq, Repr

/-- `TemplateParser._convertValueType(value, type)`.  The `boolean` arm is
`value.toLowerCase() === 'true'`; the `array` arm is
`value.split(',').map(v => v.trim())`; `number` is `Number(value)`;
a missing (falsy) type or any other type tag leaves the string as is. -/
def convertValueType (value : String) (type? : Option String) : JSValue :=
  match type? with
  | none => .vStr value
  | some t =>
    if t = "number" then .vNum (jsNumberOf value)
    else if t = "boolean" then .vBool (jsToLower value = "true")
    else if t = "array" then .vArr ((jsSplitChar ',' value).map jsTrim)
    else .vStr value

/-- The global matcher `message.match(/(\w+):([\w\s]+)/g)`, returning the
full match strings left to right.  At a given start position the match
succeeds exactly when a maximal nonempty `\w` run is followed by `:` and
a nonempty `[\w\s]` run (shrinking the greedy runs can never help, since
the character that stopped a run can also not continue the pattern);
scanning resumes after each match, else one character further on. -/
def kvScan : Nat → List Char → List String
  | 0, _ => []
  | _, [] => []
  | fuel + 1, c :: cs =>
    if isWordChar c then
      let key := (c :: cs).takeWhile isWordChar
      let rest := (c :: cs).dropWhile isWordChar
      match rest with
      | ':' :: rest2 =>
        let val := rest2.takeWhile (fun ch => isWordChar ch || isJsSpace ch)
        if val.isEmpty then kvScan fuel cs
        else
          String.mk (key ++ ':' :: val) ::
            kvScan fuel (rest2.dropWhile (fun ch => isWordChar ch || isJsSpace ch))
      | _ => kvScan fuel cs
    else kvScan fuel cs

/-- All `key:value` matches of `/(\w+):([\w\s]+)/g` in `message`. -/
def kvGlobalMatches (message : String) : List String :=
  kvScan message.data.length message.data

/-- The anchored command matcher `message.match(/^!(\w+)/)`, returning the
captured command name. -/
def commandMatch (message : String) : Option String :=
  match message.data with
  | '!' :: rest =>
    let run := rest.takeWhile isWordChar
    if run.isEmpty then none else some (String.mk run)
  | _ => none

/-- One type-check clause of `validateParsedMessage` (the `if`/`else if`
chain over the expected type). -/
def typeCheckErrors (field : String) (t : String) (v : JSValue) : List String :=
  if t = "number" ∧ jsTypeof v ≠ "number" then
    ["Field \"" ++ field ++ "\" should be a number"]
  else if t = "boolean" ∧ jsTypeof v ≠ "boolean" then
    ["Field \"" ++ field ++ "\" should be a boolean"]
  else if t = "array" ∧ ¬(jsIsArray v = true) then
    ["Field \"" ++ field ++ "\" should be an array"]
  else []

/-- `TemplateParser.validateParsedMessage(parsed, template)`: walk the
template's fields in declaration order, collecting required-field and
type errors; `isValid` is `errors.length === 0`. -/
def validateParsedMessage (parsed : List (String × JSValue))
    (template : MessageTemplate) : ParsedMessage :=
  let errors := template.fields.foldl
    (fun errs fd =>
      let field := fd.1
      let deff := fd.2
      let v? := mapGet parsed field
      let errs :=
        if deff.required ∧ v? = none then
          errs ++ ["Required field \"" ++ field ++ "\" is missing"]
        else errs
      match v?, deff.type with
      | some v, some t => errs ++ typeCheckErrors field t v
      | _, _ => errs)
    []
  { fields := parsed, errors := errors, isValid := errors.length = 0 }

/-- `TemplateParser.parseMessage(message, template)` (template given as a
definition, not a name): extract the leading `!command`, fold the global
`key:value` matches into the result object (`pair.split(':')`, both
parts nonempty, value trimmed and coerced via the template's declared
type for the raw key), then validate. -/
def parseMessage (message : String) (template : MessageTemplate) : ParsedMessage :=
  let base : List (String × JSValue) :=
    match commandMatch message with
    | some c => [("command", .vStr c)]
    | none => []
  let parsed := (kvGlobalMatches message).foldl
    (fun acc pair =>
      match jsSplitChar ':' pair with
      | key :: value :: _ =>
        if key ≠ "" ∧ value ≠ "" then
          let fieldType := (mapGet template.fields key).bind (·.type)
          mapSet acc (jsTrim key) (convertValueType (jsTrim value) fieldType)
        else acc
      | _ => acc)
    base
  validateParsedMessage parsed template

/-- The order template of the spec's parser example (and of
`examples/function_calling.js`): `command`/`item`/`quantity` required,
`address` optional. -/
def orderTemplate : MessageTemplate :=
  { fields :=
      [ ("command", { type := some "string", required := true }),
        ("item", { type := some "string", required := true }),
        ("quantity", { type := some "number", required := true }),
        ("address", { type := some "string", required := false }) ] }

/-! ## Thread and Assistant state (`Thread.js`, `AIAssistant.js`,
`storage/ThreadStorage.js`, in-memory provider)

The assistant's mutable state is the in-memory thread working set
(`_threads`), the in-memory storage provider's map (`_storage._threads`),
the handoff map (`_handoffState`), and the configuration values the
claims depend on (`memory.maxThreads`, `memory.ttl`). -/

/-- A role-tagged history message. -/
structure Msg where
  role : String
  content : String
deriving DecidableEq, Repr

/-- A handoff entry, as built by `handoffToHuman`. -/
structure HandoffState where
  isHumanMode : Bool
  handoffTime : Nat
  reason : String
  metadata : List (String × String)
  threadId : String
deriving DecidableEq, Repr

/-- A thread-context value: `addContext` stores strings
(`humanInteractionSummary`), handoff states (`handoffState`) and
metadata objects (`releaseMetadata`). -/
inductive CtxVal where
  | str : String → CtxVal
  | handoff : HandoffState → CtxVal
  | meta : List (String × String) → CtxVal
deriving DecidableEq, Repr

/-- A thread's data: also exactly the snapshot `AIAssistant.saveThread`
persists (`{chatId, context, history, lastUsed}`). -/
structure ThreadData where
  chatId : String
  context : List (String × CtxVal)
  history : List Msg
  lastUsed : Nat
deriving DecidableEq, Repr

/-- The assistant's state. -/
structure AIState where
  threads : List (String × ThreadData)
  storage : List (String × ThreadData)
  handoff : List (String × HandoffState)
  maxThreads : Nat
  ttl : Nat
deriving DecidableEq, Repr

/-- Options of `AIAssistant.ask` / `processMessage` used by the claims. -/
structure AskOptions where
  ignoreHandoffState : Bool
  fallbackResponse : Option String
  handoffOnError : Bool
deriving DecidableEq, Repr

/-- `MemoryThreadStorage.saveThread`: upsert keyed by the snapshot's
`chatId`. -/
def storageSave (storage : List (String × ThreadData)) (td : ThreadData) :
    List (String × ThreadData) :=
  mapSet storage td.chatId td

/-- `MemoryThreadStorage.getThread`: absent → null; present but expired
(`ttl` truthy and `now - lastUsed > ttl * 1000`) → delete it and return
null; else the snapshot.  Returns the possibly-updated store alongside. -/
def storageGetThread (storage : List (String × ThreadData)) (chatId : String)
    (ttl now : Nat) : Option ThreadData × List (String × ThreadData) :=
  match mapGet storage chatId with
  | none => (none, storage)
  | some td =>
    if ttl ≠ 0 ∧ now - td.lastUsed > ttl * 1000 then (none, mapDelete storage chatId)
    else (some td, storage)

/-- `AIAssistant.isInHumanMode(chatId)`:
`_handoffState.has(chatId) && _handoffState.get(chatId).isHumanMode`. -/
def isInHumanMode (st : AIState) (chatId : String) : Bool :=
  match mapGet st.handoff chatId with
  | some h => h.isHumanMode
  | none => false

/-- `AIAssistant.getHumanModeChats()`: one `{chatId, ...state}` record per
handoff entry, in map order. -/
def getHumanModeChats (st : AIState) : List (String × HandoffState) :=
  st.handoff.map (fun p => (p.1, p.2))

/-- Stable ascending sort by `lastUsed` (JS
`threads.sort((a, b) => a[1].lastUsed - b[1].lastUsed)`; `Array.sort` is
stable): insert each earlier element before later elements with an equal
key. -/
def insertByLastUsed (x : String × ThreadData) :
    List (String × ThreadData) → List (String × ThreadData)
  | [] => [x]
  | y :: ys =>
    if y.2.lastUsed < x.2.lastUsed then y :: insertByLastUsed x ys else x :: y :: ys

/-- Stable sort by `lastUsed`, ascending. -/
def sortByLastUsed : List (String × ThreadData) → List (String × ThreadData)
  | [] => []
  | x :: rest => insertByLastUsed x (sortByLastUsed rest)

/-- The eviction loop of `AIAssistant._cleanupOldThreads`: shift entries
off the sorted list while the working set is at or above the cap, saving
each one to storage before dropping it from the working set. -/
def cleanupLoop : List (String × ThreadData) → AIState → AIState
  | [], st => st
  | (cid, td) :: rest, st =>
    if st.threads.length ≥ st.maxThreads then
      cleanupLoop rest
        { st with storage := storageSave st.storage td,
                  threads := mapDelete st.threads cid }
    else st

/-- `AIAssistant._cleanupOldThreads()`. -/
def cleanupOldThreads (st : AIState) : AIState :=
  cleanupLoop (sortByLastUsed st.threads) st

/-- `AIAssistant.createThread(chatId)`: evict if the working set is at
the cap, load the snapshot from storage (lazy TTL expiry) or start
fresh, run the `Thread` constructor (`lastUsed = data.lastUsed ||
Date.now()`), and put the thread into the working set. -/
def createThread (st : AIState) (chatId : String) (now : Nat) :
    ThreadData × AIState :=
  let st1 := if st.threads.length ≥ st.maxThreads then cleanupOldThreads st else st
  let got := storageGetThread st1.storage chatId st1.ttl now
  let tdData := match got.1 with
    | some td => td
    | none => { chatId := chatId, context := [], history := [], lastUsed := now }
  let t : ThreadData :=
    { chatId := chatId, context := tdData.context, history := tdData.history,
      lastUsed := if tdData.lastUsed = 0 then now else tdData.lastUsed }
  (t, { st1 with storage := got.2, threads := mapSet st1.threads chatId t })

/-- The thread used by an operation for `chatId`: the working-set entry
if present, else the one `createThread` produces (`AIAssistant.ask`,
`handoffToHuman` and `releaseToAI` all share this pattern). -/
def acquireThread (st : AIState) (chatId : String) (now : Nat) :
    ThreadData × AIState :=
  match mapGet st.threads chatId with
  | some t => (t, st)
  | none => createThread st chatId now

/-- The truncation step of `Thread.ask`:
`if (this._history.length > 20) this._history = this._history.slice(-20)`
(`slice(-20)` keeps the most recent 20 entries, dropping from the
front). -/
def trimHistory (h2 : List Msg) : List Msg :=
  if h2.length > 20 then h2.drop (h2.length - 20) else h2

/-- `Thread.ask`'s history update: append the user entry, append the
assistant entry, and truncate. -/
def askHistoryUpdate (h : List Msg) (prompt resp : String) : List Msg :=
  trimHistory (h ++ [{ role := "user", content := prompt },
                     { role := "assistant", content := resp }])

/-- `Thread._callAI`, driven by an abstract generation-backend outcome:
a successful completion is returned as is; on a backend error the catch
returns `options.fallbackResponse` when truthy, else rethrows (the
`fallbackProvider` retry is outside the claims and not modelled).
Exactly one backend invocation happens either way. -/
def callAI (backend : Except String String) (opts : AskOptions) :
    Except String String :=
  match backend with
  | .ok r => .ok r
  | .error e =>
    if jsTruthyStr opts.fallbackResponse then .ok (opts.fallbackResponse.getD "")
    else .error e

/-- `Thread.ask(prompt, options)` as a state transition.  On success the
thread's history is extended and truncated, the thread is saved to
storage, and the response returned; on a propagated backend error the
in-memory thread keeps the already-pushed user entry and the updated
`lastUsed` but nothing is persisted.  The final component counts
generation-backend invocations. -/
def threadAsk (st : AIState) (t : ThreadData) (prompt : String)
    (opts : AskOptions) (backend : Except String String) (now : Nat) :
    Except String String × AIState × Nat :=
  match callAI backend opts with
  | .ok resp =>
    let t2 : ThreadData :=
      { t with lastUsed := now, history := askHistoryUpdate t.history prompt resp }
    (.ok resp,
      { st with threads := mapSet st.threads t.chatId t2,
                storage := storageSave st.storage t2 }, 1)
  | .error e =>
    let t1 : ThreadData :=
      { t with lastUsed := now,
               history := t.history ++ [{ role := "user", content := prompt }] }
    (.error e, { st with threads := mapSet st.threads t.chatId t1 }, 1)

/-- The body of `AIAssistant.ask` past the middleware: get or create the
thread, run `Thread.ask`, and apply the assistant-level catch
(`options.fallbackResponse` when truthy, else rethrow). -/
def askViaThread (st : AIState) (chatId prompt : String) (opts : AskOptions)
    (backend : Except String String) (now : Nat) :
    Except String String × AIState × Nat :=
  let acq := acquireThread st chatId now
  match threadAsk acq.2 acq.1 prompt opts backend now with
  | (.error e, st2, n) =>
    if jsTruthyStr opts.fallbackResponse then (.ok (opts.fallbackResponse.getD ""), st2, n)
    else (.error e, st2, n)
  | ok => ok

/-! ### Middleware (`AIAssistant.use` / `_executeMiddleware`) -/

/-- The mutable context handed to middleware (the fields the claims
involve; `thread` and `error` start null and no modelled step sets
them). -/
structure MWContext where
  chatId : String
  prompt : String
  response : Option String

/-- One middleware step: its mutation of the context before `next()`,
and whether it calls `next()`. -/
structure MWStep where
  run : MWContext → MWContext
  callsNext : Bool

/-- `AIAssistant._executeMiddleware(context)`: run the steps in
registration order; a step that does not call `next()` stops the
chain. -/
def execMiddleware : List MWStep → MWContext → MWContext
  | [], ctx => ctx
  | s :: rest, ctx =>
    let c := s.run ctx
    if s.callsNext then execMiddleware rest c else c

/-- The exact error message `AIAssistant.ask` throws for a chat in human
mode. -/
def humanModeErrorMsg : String :=
  "Cannot use AI to respond while in human mode. Use releaseToAI first or set ignoreHandoffState option."

/-- `AIAssistant.ask(chatId, prompt, options)`: the human-mode guard
(thrown before any other work), then the middleware chain, then the
truthiness check on `context.response`, then the thread path. -/
def assistantAsk (st : AIState) (chatId prompt : String) (opts : AskOptions)
    (mws : List MWStep) (backend : Except String String) (now : Nat) :
    Except String String × AIState × Nat :=
  if isInHumanMode st chatId && !opts.ignoreHandoffState then
    (.error humanModeErrorMsg, st, 0)
  else
    let ctx := execMiddleware mws
      { chatId := chatId, prompt := prompt, response := none }
    match ctx.response with
    | some r =>
      if r ≠ "" then (.ok r, st, 0)
      else askViaThread st chatId prompt opts backend now
    | none => askViaThread st chatId prompt opts backend now

/-! ### Handoff state machine (`handoffToHuman`, `releaseToAI`) -/

/-- `AIAssistant.handoffToHuman(chatId, reason, metadata)`: acquire the
thread, write the handoff entry (`isHumanMode: true`), store it in the
thread context (`addContext` immediately persists), save the thread, and
return true.  The `onHandoff` callback cannot affect the transition
(errors are swallowed) and is not modelled. -/
def handoffToHuman (st : AIState) (chatId reason : String)
    (metadata : List (String × String)) (now : Nat) : Bool × AIState :=
  let acq := acquireThread st chatId now
  let thread := acq.1
  let st1 := acq.2
  let hs : HandoffState :=
    { isHumanMode := true, handoffTime := now, reason := reason,
      metadata := metadata, threadId := thread.chatId }
  let t2 : ThreadData :=
    { thread with context := mapSet thread.context "handoffState" (.handoff hs) }
  (true,
    { st1 with handoff := mapSet st1.handoff chatId hs,
               threads := mapSet st1.threads chatId t2,
               storage := storageSave st1.storage t2 })

/-- `AIAssistant.releaseToAI(chatId, summary, metadata)`: no-op returning
false unless the chat is in human mode; otherwise acquire the thread,
delete the handoff entry, and — only when `summary` is truthy — store
`humanInteractionSummary` in the context and push the system-role
summary message; only when `metadata` is nonempty, store
`releaseMetadata`; then save the thread and return true.  The
`onRelease` callback is swallowed-on-error and not modelled. -/
def releaseToAI (st : AIState) (chatId summary : String)
    (metadata : List (String × String)) (now : Nat) : Bool × AIState :=
  if !isInHumanMode st chatId then (false, st)
  else
    let acq := acquireThread st chatId now
    let thread := acq.1
    let st1 := acq.2
    let st2 := { st1 with handoff := mapDelete st1.handoff chatId }
    let t1 : ThreadData :=
      if summary ≠ "" then
        { thread with
          context := mapSet thread.context "humanInteractionSummary" (.str summary),
          history := thread.history ++
            [{ role := "system", content := "Human operator summary: " ++ summary }] }
      else thread
    let t2 : ThreadData :=
      if metadata ≠ [] then
        { t1 with context := mapSet t1.context "releaseMetadata" (.meta metadata) }
      else t1
    (true,
      { st2 with threads := mapSet st2.threads chatId t2,
                 storage := storageSave st2.storage t2 })

/-! ### Dispatcher (`AIAssistant.processMessage`)

The two reason-extraction regexes are modelled by direct scanners.  One
unreachable corner is simplified: for `/#(handoff|human|agent)\s+(.+)/i`
a tail consisting purely of whitespace (where the regex backtracks into
`\s+` to feed `(.+)`) is treated as no match; no input in this
development has such a tail. -/

/-- Case-insensitive prefix test returning the rest on success. -/
def ciPrefixRest : List Char → List Char → Option (List Char)
  | [], cs => some cs
  | _ :: _, [] => none
  | p :: ps, c :: cs => if p.toLower = c.toLower then ciPrefixRest ps cs else none

/-- Try the alternation words in order, returning the rest after the
first case-insensitive match. -/
def tryWordsCI (words : List String) (cs : List Char) : Option (List Char) :=
  match words with
  | [] => none
  | w :: ws =>
    match ciPrefixRest w.data cs with
    | some rest => some rest
    | none => tryWordsCI ws cs

/-- `message.toLowerCase().includes('#handoff') || ... '#human' || ...
'#agent'`. -/
def hasUserHandoffTag (message : String) : Bool :=
  jsIncludes (jsToLower message) "#handoff" ||
  jsIncludes (jsToLower message) "#human" ||
  jsIncludes (jsToLower message) "#agent"

/-- `\s+(.+)` applied to the text after the tag word: at least one
whitespace character, then the rest up to a newline, which must be
nonempty. -/
def wsThenReason (rest : List Char) : Option String :=
  let w := rest.takeWhile isJsSpace
  let tail := rest.dropWhile isJsSpace
  if w.isEmpty then none
  else if tail.isEmpty then none
  else some (String.mk (tail.takeWhile (fun c => c ≠ '\n')))

/-- `message.match(/#(handoff|human|agent)\s+(.+)/i)`, yielding the
captured reason of the first match. -/
def userReasonScan : Nat → List Char → Option String
  | 0, _ => none
  | _, [] => none
  | fuel + 1, c :: cs =>
    if c = '#' then
      match tryWordsCI ["handoff", "human", "agent"] cs with
      | some rest =>
        match wsThenReason rest with
        | some reason => some reason
        | none => userReasonScan fuel cs
      | none => userReasonScan fuel cs
    else userReasonScan fuel cs

/-- The reason `processMessage` uses for a user-tag handoff. -/
def extractUserReason (message : String) : String :=
  match userReasonScan message.data.length message.data with
  | some r => r
  | none => "User requested human assistance"

/-- `response.toLowerCase().includes('[handoff]') || ...
'[human needed]'`. -/
def hasAiHandoffTag (response : String) : Bool :=
  jsIncludes (jsToLower response) "[handoff]" ||
  jsIncludes (jsToLower response) "[human needed]"

/-- The tail of `/\[(handoff|human needed)\s*:?\s*([^\]]+)\]/i` after the
tag word: optional whitespace, an optional colon, optional whitespace,
then a nonempty bracket-free capture closed by `]`. -/
def aiReasonAfterWord (rest : List Char) : Option String :=
  let r1 := rest.dropWhile isJsSpace
  let r2 := match r1 with
    | ':' :: t => t.dropWhile isJsSpace
    | _ => r1
  let body := r2.takeWhile (fun c => c ≠ ']')
  match r2.dropWhile (fun c => c ≠ ']') with
  | ']' :: _ => if body.isEmpty then none else some (String.mk body)
  | _ => none

/-- `response.match(/\[(handoff|human needed)\s*:?\s*([^\]]+)\]/i)`,
yielding the captured reason of the first match. -/
def aiReasonScan : Nat → List Char → Option String
  | 0, _ => none
  | _, [] => none
  | fuel + 1, c :: cs =>
    if c = '[' then
      match tryWordsCI ["handoff", "human needed"] cs with
      | some rest =>
        match aiReasonAfterWord rest with
        | some reason => some reason
        | none => aiReasonScan fuel cs
      | none => aiReasonScan fuel cs
    else aiReasonScan fuel cs

/-- The reason `processMessage` uses for an AI-tag handoff. -/
def extractAiReason (response : String) : String :=
  match aiReasonScan response.data.length response.data with
  | some r => r
  | none => "AI requested human assistance"

/-- After a matched tag word, skip `[^\]]*` and the closing `]`,
returning the rest (for the global strip). -/
def tagCloseRest (rest : List Char) : Option (List Char) :=
  match rest.dropWhile (fun c => c ≠ ']') with
  | ']' :: t => some t
  | _ => none

/-- The global replace
`response.replace(/\[(handoff|human needed)[^\]]*\]/gi, '')`. -/
def stripTagsScan : Nat → List Char → List Char
  | 0, cs => cs
  | _, [] => []
  | fuel + 1, c :: cs =>
    if c = '[' then
      match tryWordsCI ["handoff", "human needed"] cs with
      | some rest =>
        match tagCloseRest rest with
        | some after => stripTagsScan fuel after
        | none => c :: stripTagsScan fuel cs
      | none => c :: stripTagsScan fuel cs
    else c :: stripTagsScan fuel cs

/-- `response.replace(/\[(handoff|human needed)[^\]]*\]/gi, '').trim()`. -/
def stripAiTags (response : String) : String :=
  jsTrim (String.mk (stripTagsScan response.data.length response.data))

/-- The transfer acknowledgment text of `processMessage`. -/
def transferMsg : String :=
  "I\x27m transferring you to a human agent who will assist you shortly."

/-- The apology text of the `handoffOnError` branch. -/
def errorHandoffMsg : String :=
  "I\x27m having trouble processing your request. I\x27m transferring you to a human agent who will assist you shortly."

/-- A `processMessage` result record. -/
structure PMResult where
  type : String
  response : Option String
  handled : Option Bool
  handoffState : Option HandoffState
  error : Option String
deriving DecidableEq, Repr

/-- `AIAssistant.processMessage(chatId, message, options)` with no
`onMessage` handler registered: route to the human-mode result if the
chat is in human mode; else perform a user-tag handoff; else ask the AI
and either perform an AI-tag handoff, return the `ai` result, or — on an
uncaught error — hand off with reason `'AI processing error'` when
`options.handoffOnError` is set and rethrow otherwise.  The state after
the call is returned alongside in both outcomes. -/
def processMessage (st : AIState) (chatId message : String) (opts : AskOptions)
    (mws : List MWStep) (backend : Except String String) (now : Nat) :
    Except String PMResult × AIState :=
  if isInHumanMode st chatId then
    (.ok { type := "human", response := none, handled := some false,
           handoffState := mapGet st.handoff chatId, error := none }, st)
  else if hasUserHandoffTag message then
    let reason := extractUserReason message
    let ho := handoffToHuman st chatId reason
      [("triggerMessage", message), ("automatic", "false")] now
    (.ok { type := "handoff", response := some transferMsg, handled := none,
           handoffState := mapGet ho.2.handoff chatId, error := none }, ho.2)
  else
    match assistantAsk st chatId message opts mws backend now with
    | (.ok response, st1, _) =>
      if hasAiHandoffTag response then
        let reason := extractAiReason response
        let clean := stripAiTags response
        let ho := handoffToHuman st1 chatId reason
          [("triggerMessage", message), ("aiResponse", clean), ("automatic", "true")] now
        (.ok { type := "handoff",
               response := some (if clean ≠ "" then clean else transferMsg),
               handled := none, handoffState := mapGet ho.2.handoff chatId,
               error := none }, ho.2)
      else
        (.ok { type := "ai", response := some response, handled := none,
               handoffState := none, error := none }, st1)
    | (.error e, st1, _) =>
      if opts.handoffOnError then
        let ho := handoffToHuman st1 chatId "AI processing error"
          [("error", e), ("triggerMessage", message), ("automatic", "true")] now
        (.ok { type := "handoff", response := some errorHandoffMsg, handled := none,
               handoffState := mapGet ho.2.handoff chatId, error := some e }, ho.2)
      else (.error e, st1)

/-! ### Reachable assistant states

The operations that can touch an assistant's state after construction
are thread creation, the two handoff transitions, `ask`, and the
dispatcher; `Reach` closes the freshly-constructed state (all maps
empty) under them, over arbitrary arguments, middleware, backend
behaviors and times. -/

/-- Reachable assistant states. -/
inductive Reach : AIState → Prop where
  | init (maxThreads ttl : Nat) :
      Reach { threads := [], storage := [], handoff := [],
              maxThreads := maxThreads, ttl := ttl }
  | create (st : AIState) (chatId : String) (now : Nat) :
      Reach st → Reach (createThread st chatId now).2
  | doHandoff (st : AIState) (chatId reason : String)
      (metadata : List (String × String)) (now : Nat) :
      Reach st → Reach (handoffToHuman st chatId reason metadata now).2
  | doRelease (st : AIState) (chatId summary : String)
      (metadata : List (String × String)) (now : Nat) :
      Reach st → Reach (releaseToAI st chatId summary metadata now).2
  | doAsk (st : AIState) (chatId prompt : String) (opts : AskOptions)
      (mws : List MWStep) (backend : Except String String) (now : Nat) :
      Reach st → Reach (assistantAsk st chatId prompt opts mws backend now).2.1
  | doProcess (st : AIState) (chatId message : String) (opts : AskOptions)
      (mws : List MWStep) (backend : Except String String) (now : Nat) :
      Reach st → Reach (processMessage st chatId message opts mws backend now).2

/-- The handoff-map invariant: every entry records `isHumanMode = true`,
and keys are unique. -/
def handoffInv (st : AIState) : Prop :=
  (∀ p ∈ st.handoff, p.2.isHumanMode = true) ∧ (st.handoff.map Prod.fst).Nodup

/-! ### Concrete fixtures used by witnesses and counterexamples -/

/-- A freshly constructed assistant (default `maxThreads`/`ttl`). -/
def emptyState : AIState :=
  { threads := [], storage := [], handoff := [], maxThreads := 1000, ttl := 3600 }

/-- A state with chat `chat-a` handed off to a human. -/
def stHuman : AIState :=
  (handoffToHuman emptyState "chat-a" "needs help" [("k", "v")] 10).2

/-- A prior thread for the eviction scenario. -/
def tdPrior : ThreadData :=
  { chatId := "chat-a", context := [],
    history := [{ role := "user", content := "hi" },
                { role := "assistant", content := "yo" }],
    lastUsed := 100 }

/-- A working set at capacity one holding `chat-a`'s thread. -/
def stEvict : AIState :=
  { threads := [("chat-a", tdPrior)], storage := [], handoff := [],
    maxThreads := 1, ttl := 3600 }

/-- A middleware step that sets `context.response` to the empty string
(non-null but falsy) and does not call `next()`. -/
def emptyRespStep : MWStep :=
  { run := fun c => { c with response := some "" }, callsNext := false }

/-- A middleware step that sets `context.response` to a canned nonempty
reply and does not call `next()`. -/
def cannedRespStep : MWStep :=
  { run := fun c => { c with response := some "canned reply" }, callsNext := false }

/-- A probe step placed after a short-circuiting one. -/
def probeStep : MWStep :=
  { run := fun c => { c with response := some "probe ran" }, callsNext := true }

/-- Ask options with everything off. -/
def plainOpts : AskOptions :=
  { ignoreHandoffState := false, fallbackResponse := none, handoffOnError := false }

/-! ## Lemmas about the map model -/

theorem mapGet_set_self {α : Type} (m : List (String × α)) (k : String) (v : α) :
    mapGet (mapSet m k v) k = some v := by
  induction m with
  | nil => simp [mapGet, mapSet]
  | cons p rest ih =>
    obtain ⟨k0, v0⟩ := p
    by_cases h : k0 = k
    · simp [mapGet, mapSet, h]
    · simp [mapGet, mapSet, h, ih]

theorem mapGet_set_ne {α : Type} (m : List (String × α)) (k k' : String) (v : α)
    (h : k' ≠ k) : mapGet (mapSet m k v) k' = mapGet m k' := by
  have hne : k ≠ k' := fun hh => h hh.symm
  induction m with
  | nil => simp [mapGet, mapSet, hne]
  | cons p rest ih =>
    obtain ⟨k0, v0⟩ := p
    by_cases h0 : k0 = k
    · subst h0
      simp [mapGet, mapSet, hne]
    · by_cases h1 : k0 = k'
      · simp [mapGet, mapSet, h0, h1, h, hne]
      · simp [mapGet, mapSet, h0, h1, ih]

theorem mapGet_delete_self {α : Type} (m : List (String × α)) (k : String) :
    mapGet (mapDelete m k) k = none := by
  induction m with
  | nil => simp [mapGet, mapDelete]
  | cons p rest ih =>
    obtain ⟨k0, v0⟩ := p
    by_cases h : k0 = k
    · simp [mapDelete, h, ih]
    · simp [mapDelete, mapGet, h, ih]

theorem mapGet_delete_ne {α : Type} (m : List (String × α)) (k k' : String)
    (h : k' ≠ k) : mapGet (mapDelete m k) k' = mapGet m k' := by
  induction m with
  | nil => simp [mapGet, mapDelete]
  | cons p rest ih =>
    obtain ⟨k0, v0⟩ := p
    by_cases h0 : k0 = k
    · subst h0
      have : k0 ≠ k' := fun hh => h hh.symm
      simp [mapDelete, mapGet, this, ih]
    · by_cases h1 : k0 = k'
      · simp [mapDelete, mapGet, h0, h1, h]
      · simp [mapDelete, mapGet, h0, h1, ih]

theorem mem_mapSet {α : Type} (m : List (String × α)) (k : String) (v : α)
    (p : String × α) (hp : p ∈ mapSet m k v) : p ∈ m ∨ p = (k, v) := by
  induction m with
  | nil =>
    simp only [mapSet, List.mem_singleton] at hp
    exact Or.inr hp
  | cons q rest ih =>
    obtain ⟨k0, v0⟩ := q
    by_cases h : k0 = k
    · simp only [mapSet, if_pos h, List.mem_cons] at hp
      rcases hp with h1 | h1
      · exact Or.inr h1
      · exact Or.inl (List.mem_cons_of_mem _ h1)
    · simp only [mapSet, if_neg h, List.mem_cons] at hp
      rcases hp with h1 | h1
      · exact Or.inl (by simp [h1])
      · rcases ih h1 with h2 | h2
        · exact Or.inl (List.mem_cons_of_mem _ h2)
        · exact Or.inr h2

theorem mem_mapDelete {α : Type} (m : List (String × α)) (k : String)
    (p : String × α) (hp : p ∈ mapDelete m k) : p ∈ m := by
  induction m with
  | nil => simp [mapDelete] at hp
  | cons q rest ih =>
    obtain ⟨k0, v0⟩ := q
    by_cases h : k0 = k
    · simp only [mapDelete, if_pos h] at hp
      exact List.mem_cons_of_mem _ (ih hp)
    · simp only [mapDelete, if_neg h, List.mem_cons] at hp
      rcases hp with h1 | h1
      · exact List.mem_cons.mpr (Or.inl h1)
      · exact List.mem_cons_of_mem _ (ih h1)

theorem mem_keys_mapSet {α : Type} (m : List (String × α)) (k : String) (v : α)
    (x : String) (hx : x ∈ (mapSet m k v).map Prod.fst) :
    x ∈ m.map Prod.fst ∨ x = k := by
  simp only [List.mem_map] at hx
  obtain ⟨p, hp, hpx⟩ := hx
  rcases mem_mapSet m k v p hp with h | h
  · exact Or.inl (List.mem_map.mpr ⟨p, h, hpx⟩)
  · subst h
    exact Or.inr hpx.symm

theorem nodup_keys_mapSet {α : Type} (m : List (String × α)) (k : String) (v : α)
    (h : (m.map Prod.fst).Nodup) : ((mapSet m k v).map Prod.fst).Nodup := by
  induction m with
  | nil => simp [mapSet]
  | cons p rest ih =>
    obtain ⟨k0, v0⟩ := p
    simp only [List.map_cons, List.nodup_cons] at h
    by_cases h0 : k0 = k
    · subst h0
      simpa [mapSet] using h
    · simp only [mapSet, if_neg h0, List.map_cons, List.nodup_cons]
      refine ⟨fun hmem => ?_, ih h.2⟩
      rcases mem_keys_mapSet rest k v k0 hmem with hh | hh
      · exact h.1 hh
      · exact h0 hh

theorem nodup_keys_mapDelete {α : Type} (m : List (String × α)) (k : String)
    (h : (m.map Prod.fst).Nodup) : ((mapDelete m k).map Prod.fst).Nodup := by
  induction m with
  | nil => simp [mapDelete]
  | cons p rest ih =>
    obtain ⟨k0, v0⟩ := p
    simp only [List.map_cons, List.nodup_cons] at h
    by_cases h0 : k0 = k
    · simp only [mapDelete, if_pos h0]
      exact ih h.2
    · simp only [mapDelete, if_neg h0, List.map_cons, List.nodup_cons]
      refine ⟨fun hmem => ?_, ih h.2⟩
      obtain ⟨p, hp, hpx⟩ := List.mem_map.mp hmem
      exact h.1 (List.mem_map.mpr ⟨p, mem_mapDelete rest k p hp, hpx⟩)

theorem mapGet_eq_some_mem {α : Type} (m : List (String × α)) (k : String) (v : α)
    (h : mapGet m k = some v) : (k, v) ∈ m := by
  induction m with
  | nil => simp [mapGet] at h
  | cons p rest ih =>
    obtain ⟨k0, v0⟩ := p
    by_cases h0 : k0 = k
    · subst h0
      have hv : v0 = v := by simpa [mapGet] using h
      exact List.mem_cons.mpr (Or.inl (by rw [hv]))
    · simp only [mapGet, if_neg h0] at h
      exact List.mem_cons_of_mem _ (ih h)

theorem mem_mapGet_of_nodup {α : Type} (m : List (String × α)) (k : String) (v : α)
    (hnd : (m.map Prod.fst).Nodup) (h : (k, v) ∈ m) : mapGet m k = some v := by
  induction m with
  | nil => simp at h
  | cons p rest ih =>
    obtain ⟨k0, v0⟩ := p
    simp only [List.map_cons, List.nodup_cons] at hnd
    rcases List.mem_cons.mp h with h1 | h1
    · have hk : k = k0 := congrArg Prod.fst h1
      have hv : v = v0 := congrArg Prod.snd h1
      simp [mapGet, hk.symm, hv]
    · have hk0 : k0 ≠ k := by
        intro hk
        subst hk
        exact hnd.1 (List.mem_map.mpr ⟨(k0, v), h1, rfl⟩)
      simp [mapGet, hk0, ih hnd.2 h1]

/-! ## C1 / C9: the human-mode guard of `AIAssistant.ask` -/

/-- C1: for every chat in human mode and every prompt, `ask` without the
`ignoreHandoffState` opt-out throws the explicit human-mode error before
any middleware, thread, or generation-backend work: the result is the
error, the state is untouched, and the backend call count is `0`, for
every middleware chain and every backend behavior. -/
theorem ask_fails_fast_in_human_mode (st : AIState) (chatId prompt : String)
    (opts : AskOptions) (mws : List MWStep) (backend : Except String String)
    (now : Nat) (hhm : isInHumanMode st chatId = true)
    (hig : opts.ignoreHandoffState = false) :
    assistantAsk st chatId prompt opts mws backend now =
      (.error humanModeErrorMsg, st, 0) := by
  simp [assistantAsk, hhm, hig]

/-- Witness for C1: the guard fires on the concrete handed-off state. -/
theorem ask_fails_fast_in_human_mode_witness :
    isInHumanMode stHuman "chat-a" = true ∧
    plainOpts.ignoreHandoffState = false ∧
    assistantAsk stHuman "chat-a" "hello" plainOpts [] (.ok "resp") 20 =
      (.error humanModeErrorMsg, stHuman, 0) :=
  ⟨by decide, rfl,
    ask_fails_fast_in_human_mode stHuman "chat-a" "hello" plainOpts []
      (.ok "resp") 20 (by decide) rfl⟩

/-- C9: the human-mode guard is evaluated before the error-recovery path,
so even a supplied `fallbackResponse` never masks the human-mode
violation: the call still results in the human-mode error, never in the
fallback. -/
theorem ask_human_guard_beats_fallback (st : AIState) (chatId prompt : String)
    (opts : AskOptions) (mws : List MWStep) (backend : Except String String)
    (now : Nat) (fb : String) (hhm : isInHumanMode st chatId = true)
    (hig : opts.ignoreHandoffState = false)
    (_hfb : opts.fallbackResponse = some fb) :
    (assistantAsk st chatId prompt opts mws backend now).1 =
        .error humanModeErrorMsg ∧
    (assistantAsk st chatId prompt opts mws backend now).1 ≠ .ok fb := by
  constructor
  · simp [assistantAsk, hhm, hig]
  · simp [assistantAsk, hhm, hig]

/-- Witness for C9: with a fallback response supplied on the concrete
handed-off state, the error is still thrown and the fallback is not
returned. -/
theorem ask_human_guard_beats_fallback_witness :
    isInHumanMode stHuman "chat-a" = true ∧
    (assistantAsk stHuman "chat-a" "hello"
        { ignoreHandoffState := false, fallbackResponse := some "fb",
          handoffOnError := false } [] (.error "backend down") 20).1 =
      .error humanModeErrorMsg ∧
    (assistantAsk stHuman "chat-a" "hello"
        { ignoreHandoffState := false, fallbackResponse := some "fb",
          handoffOnError := false } [] (.error "backend down") 20).1 ≠ .ok "fb" :=
  ⟨by decide,
    (ask_human_guard_beats_fallback stHuman "chat-a" "hello" _ [] (.error "backend down")
      20 "fb" (by decide) rfl rfl).1,
    (ask_human_guard_beats_fallback stHuman "chat-a" "hello" _ [] (.error "backend down")
      20 "fb" (by decide) rfl rfl).2⟩

/-! ## C3: the history bound of `Thread.ask` -/

/-- A single completed `ask` leaves at most 20 history entries. -/
theorem askHistoryUpdate_length_le (h : List Msg) (p r : String) :
    (askHistoryUpdate h p r).length ≤ 20 := by
  unfold askHistoryUpdate trimHistory
  split
  · rename_i hgt
    simp only [List.length_drop]
    omega
  · rename_i hle
    omega

/-- C3: for every starting history and every nonempty sequence of
completed `Thread.ask` calls (each contributing its prompt/response
pair), the history length after the last call — and hence after each
call, every prefix being such a sequence — is at most 20. -/
theorem thread_history_bounded (steps : List (String × String)) (h0 : List Msg)
    (hne : steps ≠ []) :
    (steps.foldl (fun h pr => askHistoryUpdate h pr.1 pr.2) h0).length ≤ 20 := by
  induction steps generalizing h0 with
  | nil => exact absurd rfl hne
  | cons s rest ih =>
    cases rest with
    | nil => simpa using askHistoryUpdate_length_le h0 s.1 s.2
    | cons t ts =>
      rw [List.foldl_cons]
      exact ih (askHistoryUpdate h0 s.1 s.2) (by simp)

/-- Witness for C3: one ask from an empty history. -/
theorem thread_history_bounded_witness :
    ([("hi", "hello")] : List (String × String)) ≠ [] ∧
    (([("hi", "hello")] : List (String × String)).foldl
      (fun h pr => askHistoryUpdate h pr.1 pr.2) []).length ≤ 20 :=
  ⟨by decide, thread_history_bounded [("hi", "hello")] [] (by decide)⟩

/-! ## C6: boolean coercion of `_convertValueType` -/

/-- C6 counterexample: the coercion is case-insensitive
(`value.toLowerCase() === 'true'`), so `"TRUE"` and `"True"` coerce to
`true`, not `false` as the claim states. -/
theorem convert_boolean_case_insensitive_cex :
    convertValueType "TRUE" (some "boolean") = .vBool true ∧
    convertValueType "True" (some "boolean") = .vBool true := by
  constructor <;> decide

/-- C6 as amended: for a `boolean`-typed field the coercion yields `true`
exactly when the raw string lowercased is `"true"` (so `"true"`,
`"TRUE"`, `"True"` all map to `true`), and `false` for every other
string. -/
theorem convert_boolean_ci (v : String) :
    convertValueType v (some "boolean") = .vBool true ↔ jsToLower v = "true" := by
  have h1 : ("boolean" : String) ≠ "number" := by decide
  simp [convertValueType, h1]

/-! ## C2: the spec's `parseMessage` example against the code -/

/-- C2: evaluating the parser at the advertised input
`"!order item:pizza quantity:2 address:123 Main St"` (the repo's own
examples document this exact format).  The value class `[\w\s]+` of the
key-value regex greedily crosses the space, so the first match is
`item:pizza quantity`; the `quantity` field is never parsed, validation
reports it missing, and the result is invalid — against both the spec's
example and the code's documented intent. -/
theorem parseMessage_order_example :
    parseMessage "!order item:pizza quantity:2 address:123 Main St" orderTemplate =
      { fields := [("command", .vStr "order"), ("item", .vStr "pizza quantity"),
                   ("address", .vStr "123 Main St")],
        errors := ["Required field \"quantity\" is missing"],
        isValid := false } := by
  decide

/-! ## C5: middleware short-circuit -/

/-- A step that declines to call `next()` ends the chain: the steps after
it never influence the result. -/
theorem execMiddleware_shortCircuit (pre : List MWStep) (step : MWStep)
    (post : List MWStep) (ctx : MWContext)
    (hpre : ∀ s ∈ pre, s.callsNext = true) (hstep : step.callsNext = false) :
    execMiddleware (pre ++ step :: post) ctx = step.run (execMiddleware pre ctx) := by
  induction pre generalizing ctx with
  | nil => simp [execMiddleware, hstep]
  | cons s rest ih =>
    have hs : s.callsNext = true := hpre s (List.mem_cons_self s rest)
    simp only [List.cons_append, execMiddleware, hs, if_true]
    exact ih (s.run ctx) (fun x hx => hpre x (List.mem_cons_of_mem s hx))

/-- C5 as amended: if, for a chat not in human mode, the middleware chain
reaches a step that sets `context.response` to a truthy (non-null,
nonempty) value and returns without calling `next()`, then the later
steps never run and `ask` returns that response with the state untouched
and the generation backend never invoked (call count `0`). -/
theorem middleware_shortCircuit_truthy (st : AIState) (chatId prompt : String)
    (opts : AskOptions) (pre : List MWStep) (step : MWStep) (post : List MWStep)
    (backend : Except String String) (now : Nat) (r : String)
    (hhm : isInHumanMode st chatId = false)
    (hpre : ∀ s ∈ pre, s.callsNext = true) (hstep : step.callsNext = false)
    (hresp : (step.run (execMiddleware pre
        { chatId := chatId, prompt := prompt, response := none })).response = some r)
    (hr : r ≠ "") :
    assistantAsk st chatId prompt opts (pre ++ step :: post) backend now =
      (.ok r, st, 0) := by
  unfold assistantAsk
  rw [hhm]
  simp only [Bool.false_and, Bool.false_eq_true, if_false]
  rw [execMiddleware_shortCircuit pre step post _ hpre hstep, hresp]
  simp [hr]

/-- C5 counterexample for the claim as stated: the empty string is a
non-null response value, yet `ask`'s truthiness check skips it — the
generation backend is still invoked (call count `1`, not `0`) and its
reply, not the middleware's, is returned. -/
theorem middleware_shortCircuit_nonNull_cex :
    (assistantAsk emptyState "chat-m" "q" plainOpts [emptyRespStep]
        (.ok "backend reply") 1).2.2 = 1 ∧
    (assistantAsk emptyState "chat-m" "q" plainOpts [emptyRespStep]
        (.ok "backend reply") 1).1 = .ok "backend reply" := by
  constructor <;> rfl

/-- Witness for the amended C5: a canned truthy middleware response
short-circuits past a later probe step with zero backend calls. -/
theorem middleware_shortCircuit_truthy_witness :
    isInHumanMode emptyState "chat-m" = false ∧
    cannedRespStep.callsNext = false ∧
    assistantAsk emptyState "chat-m" "q" plainOpts
        ([] ++ cannedRespStep :: [probeStep]) (.ok "backend reply") 1 =
      (.ok "canned reply", emptyState, 0) :=
  ⟨rfl, rfl,
    middleware_shortCircuit_truthy emptyState "chat-m" "q" plainOpts []
      cannedRespStep [probeStep] (.ok "backend reply") 1 "canned reply" rfl
      (fun s hs => absurd hs (List.not_mem_nil s)) rfl rfl (by decide)⟩

/-! ## C4: `releaseToAI` -/

/-- C4 counterexample for the claim as stated: releasing `chat-a` (which
is in human mode, with an empty thread history) with the empty summary
and empty metadata succeeds, yet appends no system-role history message
and stores neither summary nor metadata — the summary/metadata writes
are guarded by truthiness in the code. -/
theorem releaseToAI_empty_summary_cex :
    isInHumanMode stHuman "chat-a" = true ∧
    (releaseToAI stHuman "chat-a" "" [] 30).1 = true ∧
    (mapGet (releaseToAI stHuman "chat-a" "" [] 30).2.threads "chat-a").map
        ThreadData.history = some [] ∧
    ((mapGet (releaseToAI stHuman "chat-a" "" [] 30).2.threads "chat-a").bind
        (fun t => mapGet t.context "humanInteractionSummary")) = none := by
  exact ⟨by decide, by decide, by decide, by decide⟩

/-- C4 as amended: `releaseToAI` on a chat in AI mode returns false and
mutates nothing; on a chat in human mode it deletes the handoff entry
and returns true, appends the system-role summary message and stores the
summary in the thread context exactly when the summary is nonempty,
stores the metadata exactly when it is nonempty, persists the thread to
storage, and a second consecutive call returns false and mutates
nothing. -/
theorem releaseToAI_behavior (st : AIState) (chatId summary : String)
    (metadata : List (String × String)) (now : Nat) :
    (isInHumanMode st chatId = false →
        releaseToAI st chatId summary metadata now = (false, st)) ∧
    (isInHumanMode st chatId = true →
      (releaseToAI st chatId summary metadata now).1 = true ∧
      mapGet (releaseToAI st chatId summary metadata now).2.handoff chatId = none ∧
      (summary ≠ "" →
        (mapGet (releaseToAI st chatId summary metadata now).2.threads chatId).map
            ThreadData.history =
          some ((acquireThread st chatId now).1.history ++
            [{ role := "system",
               content := "Human operator summary: " ++ summary }]) ∧
        ((mapGet (releaseToAI st chatId summary metadata now).2.threads chatId).bind
            (fun t => mapGet t.context "humanInteractionSummary")) =
          some (.str summary)) ∧
      (summary = "" →
        (mapGet (releaseToAI st chatId summary metadata now).2.threads chatId).map
            ThreadData.history =
          some (acquireThread st chatId now).1.history) ∧
      (metadata ≠ [] →
        ((mapGet (releaseToAI st chatId summary metadata now).2.threads chatId).bind
            (fun t => mapGet t.context "releaseMetadata")) =
          some (.meta metadata)) ∧
      mapGet (releaseToAI st chatId summary metadata now).2.storage
          ((acquireThread st chatId now).1.chatId) =
        mapGet (releaseToAI st chatId summary metadata now).2.threads chatId ∧
      releaseToAI (releaseToAI st chatId summary metadata now).2 chatId summary
          metadata now =
        (false, (releaseToAI st chatId summary metadata now).2)) := by
  constructor
  · intro h
    simp [releaseToAI, h]
  · intro h
    unfold releaseToAI
    rw [h]
    simp only [Bool.not_true, Bool.false_eq_true, if_false]
    by_cases hs : summary = ""
    · by_cases hm : metadata = []
      · simp [hs, hm, storageSave, mapGet_set_self, mapGet_delete_self,
              releaseToAI, isInHumanMode]
      · simp [hs, hm, storageSave, mapGet_set_self, mapGet_delete_self,
              mapGet_set_ne, releaseToAI, isInHumanMode]
    · by_cases hm : metadata = []
      · simp [hs, hm, storageSave, mapGet_set_self, mapGet_delete_self,
              releaseToAI, isInHumanMode]
      · have hne : ("humanInteractionSummary" : String) ≠ "releaseMetadata" := by
          decide
        simp [hs, hm, storageSave, mapGet_set_self, mapGet_delete_self,
              mapGet_set_ne _ _ _ _ hne, releaseToAI, isInHumanMode]

/-- Witness for the amended C4: a concrete successful release (nonempty
summary and metadata) followed by a no-op second call. -/
theorem releaseToAI_behavior_witness :
    isInHumanMode stHuman "chat-a" = true ∧
    (releaseToAI stHuman "chat-a" "all sorted" [("t", "1")] 30).1 = true ∧
    mapGet (releaseToAI stHuman "chat-a" "all sorted" [("t", "1")] 30).2.handoff
        "chat-a" = none ∧
    releaseToAI (releaseToAI stHuman "chat-a" "all sorted" [("t", "1")] 30).2
        "chat-a" "all sorted" [("t", "1")] 30 =
      (false, (releaseToAI stHuman "chat-a" "all sorted" [("t", "1")] 30).2) :=
  have hmain :=
    (releaseToAI_behavior stHuman "chat-a" "all sorted" [("t", "1")] 30).2 (by decide)
  ⟨by decide, hmain.1, hmain.2.1, hmain.2.2.2.2.2.2⟩

/-! ## C8: the dispatcher's error path -/

/-- With no middleware and no fallback response, a backend error
propagates out of `AIAssistant.ask`, leaving the user entry on the
in-memory thread and exactly one backend call. -/
theorem assistantAsk_backend_error (st : AIState) (chatId prompt : String)
    (opts : AskOptions) (e : String) (now : Nat)
    (hhm : isInHumanMode st chatId = false)
    (hfb : opts.fallbackResponse = none) :
    assistantAsk st chatId prompt opts [] (.error e) now =
      (.error e,
       { (acquireThread st chatId now).2 with
         threads := mapSet (acquireThread st chatId now).2.threads
           (acquireThread st chatId now).1.chatId
           { (acquireThread st chatId now).1 with
             lastUsed := now,
             history := (acquireThread st chatId now).1.history ++
               [{ role := "user", content := prompt }] } }, 1) := by
  simp [assistantAsk, askViaThread, threadAsk, callAI, execMiddleware, hhm, hfb,
        jsTruthyStr]

/-- C8 as amended: an uncaught error in the AI-processing path of
`processMessage` (no middleware, no fallback, backend failing with `e`)
yields, when `handoffOnError` is set, a `"handoff"` result carrying the
apology message and the error, with a real handoff performed — the chat
is in human mode afterwards, with reason `"AI processing error"` (not
the claim's `"processing error"`); when `handoffOnError` is not set, the
error propagates to the caller. -/
theorem processMessage_error_handling (st : AIState) (chatId message : String)
    (opts : AskOptions) (e : String) (now : Nat)
    (hhm : isInHumanMode st chatId = false)
    (htag : hasUserHandoffTag message = false)
    (hfb : opts.fallbackResponse = none) :
    (opts.handoffOnError = true →
      (∃ res, (processMessage st chatId message opts [] (.error e) now).1 =
          .ok res ∧
        res.type = "handoff" ∧ res.response = some errorHandoffMsg ∧
        res.error = some e) ∧
      isInHumanMode (processMessage st chatId message opts [] (.error e) now).2
          chatId = true ∧
      (mapGet (processMessage st chatId message opts [] (.error e) now).2.handoff
          chatId).map HandoffState.reason = some "AI processing error") ∧
    (opts.handoffOnError = false →
      (processMessage st chatId message opts [] (.error e) now).1 = .error e) := by
  have hask := assistantAsk_backend_error st chatId message opts e now hhm hfb
  constructor
  · intro hho
    unfold processMessage
    rw [hhm, htag, hask]
    simp only [Bool.false_eq_true, if_false, hho, if_true]
    refine ⟨⟨_, rfl, rfl, rfl, rfl⟩, ?_, ?_⟩
    · simp [handoffToHuman, isInHumanMode, mapGet_set_self]
    · simp [handoffToHuman, mapGet_set_self]
  · intro hho
    unfold processMessage
    rw [hhm, htag, hask]
    simp [hho]

/-- C8 counterexample for the claim as stated: the recorded handoff
reason on the error path is the string `"AI processing error"`, not
`"processing error"`. -/
theorem processMessage_error_reason_cex :
    (mapGet (processMessage emptyState "chat-c" "hello"
        { ignoreHandoffState := false, fallbackResponse := none,
          handoffOnError := true } [] (.error "boom") 50).2.handoff
        "chat-c").map HandoffState.reason = some "AI processing error" ∧
    ("AI processing error" : String) ≠ "processing error" := by
  exact ⟨by decide, by decide⟩

/-- Witness for the amended C8: the concrete error run with and without
`handoffOnError`. -/
theorem processMessage_error_handling_witness :
    (∃ res, (processMessage emptyState "chat-c" "hello"
        { ignoreHandoffState := false, fallbackResponse := none,
          handoffOnError := true } [] (.error "boom") 50).1 = .ok res ∧
      res.type = "handoff" ∧ res.response = some errorHandoffMsg ∧
      res.error = some "boom") ∧
    isInHumanMode (processMessage emptyState "chat-c" "hello"
        { ignoreHandoffState := false, fallbackResponse := none,
          handoffOnError := true } [] (.error "boom") 50).2 "chat-c" = true ∧
    (processMessage emptyState "chat-c" "hello"
        { ignoreHandoffState := false, fallbackResponse := none,
          handoffOnError := false } [] (.error "boom") 50).1 = .error "boom" :=
  have h1 := (processMessage_error_handling emptyState "chat-c" "hello"
    { ignoreHandoffState := false, fallbackResponse := none,
      handoffOnError := true } "boom" 50 (by decide) (by decide) rfl).1 rfl
  have h2 := (processMessage_error_handling emptyState "chat-c" "hello"
    { ignoreHandoffState := false, fallbackResponse := none,
      handoffOnError := false } "boom" 50 (by decide) (by decide) rfl).2 rfl
  ⟨h1.1, h1.2.1, h2⟩

/-! ## C7: eviction and reload -/

/-- C7: with `maxThreads = 1` and chat `A`'s thread in the working set,
creating a thread for a distinct chat `B` (not yet in storage) evicts
`A`'s thread: its snapshot is persisted to storage and it is dropped
from the working set.  A subsequent `ask` for `A` (while its snapshot
has not TTL-expired and the chat is not in human mode) reloads the
thread from storage with its prior history and context intact, succeeds
with the backend's response, and leaves `A`'s history equal to the prior
history extended by the new exchange. -/
theorem eviction_persists_and_reloads (st : AIState) (tA : ThreadData)
    (A B prompt resp : String) (now1 now2 : Nat) (opts : AskOptions)
    (hmax : st.maxThreads = 1) (hthreads : st.threads = [(A, tA)])
    (hcid : tA.chatId = A) (hAB : A ≠ B)
    (hsB : mapGet st.storage B = none)
    (hhm : mapGet st.handoff A = none)
    (httl : st.ttl = 0 ∨ now2 - tA.lastUsed ≤ st.ttl * 1000) :
    mapGet (createThread st B now1).2.storage A = some tA ∧
    mapGet (createThread st B now1).2.threads A = none ∧
    (createThread (createThread st B now1).2 A now2).1.history = tA.history ∧
    (createThread (createThread st B now1).2 A now2).1.context = tA.context ∧
    (assistantAsk (createThread st B now1).2 A prompt opts [] (.ok resp) now2).1 =
      .ok resp ∧
    (mapGet (assistantAsk (createThread st B now1).2 A prompt opts [] (.ok resp)
        now2).2.1.threads A).map ThreadData.history =
      some (askHistoryUpdate tA.history prompt resp) := by
  have hBA : B ≠ A := Ne.symm hAB
  have hexp : ¬(st.ttl ≠ 0 ∧ now2 - tA.lastUsed > st.ttl * 1000) := by
    rcases httl with h | h
    · simp [h]
    · intro hc
      omega
  refine ⟨?_, ?_, ?_, ?_, ?_, ?_⟩ <;>
    simp [createThread, cleanupOldThreads, cleanupLoop, sortByLastUsed,
          insertByLastUsed, storageGetThread, storageSave, acquireThread,
          assistantAsk, askViaThread, threadAsk, callAI, execMiddleware,
          isInHumanMode, jsTruthyStr, mapDelete, mapSet, mapGet,
          hthreads, hmax, hcid, hsB, hhm, hexp, hAB, hBA,
          mapGet_set_self, mapGet_set_ne _ _ _ _ hAB, mapGet_set_ne _ _ _ _ hBA]

/-- Witness for C7: concrete eviction of `chat-a` by `chat-b` and
reload. -/
theorem eviction_persists_and_reloads_witness :
    stEvict.maxThreads = 1 ∧ stEvict.threads = [("chat-a", tdPrior)] ∧
    mapGet (createThread stEvict "chat-b" 200).2.storage "chat-a" = some tdPrior ∧
    mapGet (createThread stEvict "chat-b" 200).2.threads "chat-a" = none ∧
    (createThread (createThread stEvict "chat-b" 200).2 "chat-a" 300).1.history =
      tdPrior.history ∧
    (assistantAsk (createThread stEvict "chat-b" 200).2 "chat-a" "again" plainOpts
        [] (.ok "r2") 300).1 = .ok "r2" ∧
    (mapGet (assistantAsk (createThread stEvict "chat-b" 200).2 "chat-a" "again"
        plainOpts [] (.ok "r2") 300).2.1.threads "chat-a").map ThreadData.history =
      some (askHistoryUpdate tdPrior.history "again" "r2") :=
  have h := eviction_persists_and_reloads stEvict tdPrior "chat-a" "chat-b" "again"
    "r2" 200 300 plainOpts rfl rfl rfl (by decide) rfl rfl (Or.inr (by decide))
  ⟨rfl, rfl, h.1, h.2.1, h.2.2.1, h.2.2.2.2.1, h.2.2.2.2.2⟩

/-! ## C10: the handoff-map invariant -/

theorem cleanupLoop_handoff (l : List (String × ThreadData)) (st : AIState) :
    (cleanupLoop l st).handoff = st.handoff := by
  induction l generalizing st with
  | nil => rfl
  | cons p rest ih =>
    obtain ⟨cid, td⟩ := p
    unfold cleanupLoop
    split
    · exact ih _
    · rfl

theorem createThread_handoff (st : AIState) (c : String) (n : Nat) :
    (createThread st c n).2.handoff = st.handoff := by
  simp only [createThread]
  split
  · exact cleanupLoop_handoff _ _
  · rfl

theorem acquireThread_handoff (st : AIState) (c : String) (n : Nat) :
    (acquireThread st c n).2.handoff = st.handoff := by
  unfold acquireThread
  split
  · rfl
  · exact createThread_handoff st c n

theorem threadAsk_handoff (st : AIState) (t : ThreadData) (p : String)
    (o : AskOptions) (b : Except String String) (n : Nat) :
    (threadAsk st t p o b n).2.1.handoff = st.handoff := by
  unfold threadAsk
  split <;> rfl

theorem askViaThread_handoff (st : AIState) (c p : String) (o : AskOptions)
    (b : Except String String) (n : Nat) :
    (askViaThread st c p o b n).2.1.handoff = st.handoff := by
  simp only [askViaThread]
  rcases h : threadAsk (acquireThread st c n).2 (acquireThread st c n).1 p o b n
    with ⟨res, st2, cnt⟩
  have h2 : st2.handoff = st.handoff := by
    have hh := congrArg (fun x => x.2.1.handoff) h
    simp only at hh
    rw [← hh, threadAsk_handoff, acquireThread_handoff]
  cases res with
  | error e =>
    show (if jsTruthyStr o.fallbackResponse = true
        then ((Except.ok (o.fallbackResponse.getD "") : Except String String), st2, cnt)
        else (Except.error e, st2, cnt)).2.1.handoff = st.handoff
    split
    · exact h2
    · exact h2
  | ok r => exact h2

theorem assistantAsk_handoff (st : AIState) (c p : String) (o : AskOptions)
    (mws : List MWStep) (b : Except String String) (n : Nat) :
    (assistantAsk st c p o mws b n).2.1.handoff = st.handoff := by
  simp only [assistantAsk]
  split
  · rfl
  · split
    · split
      · rfl
      · exact askViaThread_handoff st c p o b n
    · exact askViaThread_handoff st c p o b n

theorem handoffInv_of_eq {st st' : AIState} (h : st'.handoff = st.handoff)
    (hi : handoffInv st) : handoffInv st' := by
  rw [handoffInv, h]
  exact hi

theorem handoffInv_set (m : List (String × HandoffState)) (c : String)
    (hsv : HandoffState) (hhs : hsv.isHumanMode = true)
    (h1 : ∀ p ∈ m, p.2.isHumanMode = true) (h2 : (m.map Prod.fst).Nodup) :
    (∀ p ∈ mapSet m c hsv, p.2.isHumanMode = true) ∧
    ((mapSet m c hsv).map Prod.fst).Nodup := by
  refine ⟨fun p hp => ?_, nodup_keys_mapSet _ _ _ h2⟩
  rcases mem_mapSet m c hsv p hp with h | h
  · exact h1 p h
  · rw [h]
    exact hhs

theorem handoffToHuman_inv (st : AIState) (c r : String)
    (m : List (String × String)) (n : Nat) (hi : handoffInv st) :
    handoffInv (handoffToHuman st c r m n).2 := by
  obtain ⟨h1, h2⟩ := hi
  unfold handoffToHuman
  simp only [handoffInv]
  rw [acquireThread_handoff]
  exact handoffInv_set st.handoff c _ rfl h1 h2

theorem releaseToAI_inv (st : AIState) (c s : String)
    (m : List (String × String)) (n : Nat) (hi : handoffInv st) :
    handoffInv (releaseToAI st c s m n).2 := by
  obtain ⟨h1, h2⟩ := hi
  unfold releaseToAI
  split
  · exact ⟨h1, h2⟩
  · simp only [handoffInv]
    rw [acquireThread_handoff]
    refine ⟨fun p hp => h1 p (mem_mapDelete _ _ _ hp), nodup_keys_mapDelete _ _ h2⟩

theorem assistantAsk_inv (st : AIState) (c p : String) (o : AskOptions)
    (mws : List MWStep) (b : Except String String) (n : Nat)
    (hi : handoffInv st) : handoffInv (assistantAsk st c p o mws b n).2.1 :=
  handoffInv_of_eq (assistantAsk_handoff st c p o mws b n) hi

theorem processMessage_inv (st : AIState) (c msg : String) (o : AskOptions)
    (mws : List MWStep) (b : Except String String) (n : Nat)
    (hi : handoffInv st) : handoffInv (processMessage st c msg o mws b n).2 := by
  unfold processMessage
  split
  · exact hi
  · split
    · exact handoffToHuman_inv st c _ _ n hi
    · rcases h : assistantAsk st c msg o mws b n with ⟨res, st1, cnt⟩
      have h1 : handoffInv st1 := by
        have hh := congrArg (fun x => x.2.1) h
        simp only at hh
        rw [← hh]
        exact assistantAsk_inv st c msg o mws b n hi
      cases res with
      | ok r =>
        show handoffInv
          (if hasAiHandoffTag r = true then
            ((Except.ok
                { type := "handoff",
                  response := some (if stripAiTags r ≠ "" then stripAiTags r
                    else transferMsg),
                  handled := none,
                  handoffState := mapGet (handoffToHuman st1 c (extractAiReason r)
                    [("triggerMessage", msg), ("aiResponse", stripAiTags r),
                     ("automatic", "true")] n).2.handoff c,
                  error := none } : Except String PMResult),
              (handoffToHuman st1 c (extractAiReason r)
                [("triggerMessage", msg), ("aiResponse", stripAiTags r),
                 ("automatic", "true")] n).2)
          else
            ((Except.ok
                { type := "ai", response := some r, handled := none,
                  handoffState := none, error := none } : Except String PMResult),
              st1)).2
        split
        · exact handoffToHuman_inv st1 c _ _ n h1
        · exact h1
      | error e =>
        show handoffInv
          (if o.handoffOnError = true then
            ((Except.ok
                { type := "handoff", response := some errorHandoffMsg,
                  handled := none,
                  handoffState := mapGet (handoffToHuman st1 c
                    "AI processing error"
                    [("error", e), ("triggerMessage", msg), ("automatic", "true")]
                    n).2.handoff c,
                  error := some e } : Except String PMResult),
              (handoffToHuman st1 c "AI processing error"
                [("error", e), ("triggerMessage", msg), ("automatic", "true")] n).2)
          else ((Except.error e : Except String PMResult), st1)).2
        split
        · exact handoffToHuman_inv st1 c _ _ n h1
        · exact h1

/-- Every reachable state satisfies the handoff-map invariant. -/
theorem reach_handoffInv (st : AIState) (h : Reach st) : handoffInv st := by
  induction h with
  | init mt ttl => exact ⟨by simp, by simp⟩
  | create st c n hr ih => exact handoffInv_of_eq (createThread_handoff st c n) ih
  | doHandoff st c r m n hr ih => exact handoffToHuman_inv st c r m n ih
  | doRelease st c s m n hr ih => exact releaseToAI_inv st c s m n ih
  | doAsk st c p o mws b n hr ih => exact assistantAsk_inv st c p o mws b n ih
  | doProcess st c msg o mws b n hr ih =>
    exact processMessage_inv st c msg o mws b n ih

/-- C10: in every reachable state, every entry of the handoff map has
`isHumanMode = true` (only `handoffToHuman` writes entries, always with
`isHumanMode: true`; `releaseToAI` only deletes); hence
`isInHumanMode(chatId)` is equivalent to the map containing an entry for
`chatId`, and `getHumanModeChats` returns exactly one record per chat in
human mode, carrying that chat's id and handoff state. -/
theorem handoffMap_invariants (st : AIState) (hr : Reach st) :
    (∀ cid h, mapGet st.handoff cid = some h → h.isHumanMode = true) ∧
    (∀ cid, isInHumanMode st cid = (mapGet st.handoff cid).isSome) ∧
    ((getHumanModeChats st).map Prod.fst).Nodup ∧
    (∀ cid hs, (cid, hs) ∈ getHumanModeChats st ↔
      mapGet st.handoff cid = some hs) := by
  obtain ⟨h1, h2⟩ := reach_handoffInv st hr
  have hmode : ∀ cid h, mapGet st.handoff cid = some h → h.isHumanMode = true :=
    fun cid h hh => h1 (cid, h) (mapGet_eq_some_mem _ _ _ hh)
  have hgc : getHumanModeChats st = st.handoff := by
    simp [getHumanModeChats]
  refine ⟨hmode, ?_, ?_, ?_⟩
  · intro cid
    unfold isInHumanMode
    cases hg : mapGet st.handoff cid with
    | none => simp
    | some h => simp [hmode cid h hg]
  · rw [hgc]
    exact h2
  · intro cid hs
    rw [hgc]
    constructor
    · exact fun hm => mem_mapGet_of_nodup _ _ _ h2 hm
    · exact fun hg => mapGet_eq_some_mem _ _ _ hg

/-- Witness for C10: the invariants instantiated at a concrete reachable
handed-off state. -/
theorem handoffMap_invariants_witness :
    isInHumanMode stHuman "chat-a" = (mapGet stHuman.handoff "chat-a").isSome ∧
    ((getHumanModeChats stHuman).map Prod.fst).Nodup :=
  have hr : Reach stHuman :=
    Reach.doHandoff emptyState "chat-a" "needs help" [("k", "v")] 10
      (Reach.init 1000 3600)
  have h := handoffMap_invariants stHuman hr
  ⟨h.2.1 "chat-a", h.2.2.1⟩
